import Mathlib

/-!
Shallow embedding of the COBALT AQM core (src/cobalt.c).

Machine integers are modelled as Nat with explicit reduction modulo
2 ^ 32 (u32) and 2 ^ 64 (u64) at every operation where the C code can
wrap.  Signed 64-bit comparisons are expressed on the unsigned
representative: a two-complement s64 value is nonnegative exactly when
its u64 bit pattern is below 2 ^ 63.
-/

def u32lim : Nat := 4294967296

def u32max : Nat := 4294967295

def u64lim : Nat := 18446744073709551616

/-- REC_INV_SQRT_BITS is 32, so the shift is 32 - 32 = 0. -/
def REC_INV_SQRT_SHIFT : Nat := 0

def REC_INV_SQRT_CACHE : Nat := 16

/-- Wraparound subtraction of two u64 values, as computed by
`a - b` on cobalt_time_t operands in C. -/
def u64_sub (a b : Nat) : Nat := (a + (u64lim - b % u64lim)) % u64lim

/-- Model of struct cobalt_params (src/cobalt.c lines 90-96). -/
structure cobalt_params where
  interval : Nat
  target : Nat
  threshold : Nat
  p_inc : Nat
  p_dec : Nat
deriving DecidableEq

/-- Model of struct cobalt_vars (src/cobalt.c lines 108-116). -/
structure cobalt_vars where
  count : Nat
  rec_inv_sqrt : Nat
  drop_next : Nat
  blue_timer : Nat
  p_drop : Nat
  dropping : Bool
  ecn_marked : Bool
deriving DecidableEq

/-- Zeroed cobalt_vars, as produced by the memset in cobalt_vars_init. -/
def cobalt_vars_default : cobalt_vars :=
  { count := 0, rec_inv_sqrt := 0, drop_next := 0, blue_timer := 0,
    p_drop := 0, dropping := false, ecn_marked := false }

/-- General (non-cached) path of cobalt_Newton_step
(src/cobalt.c lines 134-142): one fixed-point Newton iteration for the
reciprocal square root, with the exact C shifts and wraparounds. -/
def cobalt_Newton_general (count ris : Nat) : Nat :=
  let invsqrt := ris % u32lim * 2 ^ REC_INV_SQRT_SHIFT % u32lim
  let invsqrt2 := invsqrt * invsqrt / 2 ^ 32
  let val0 := (3 * 2 ^ 32 + u64lim - count % u32lim * invsqrt2) % u64lim
  let val1 := val0 / 2 ^ 2
  let val2 := val1 * invsqrt % u64lim / 2 ^ (32 - 2 + 1)
  val2 / 2 ^ REC_INV_SQRT_SHIFT % u32lim

/-- Model of cobalt_Newton_step (src/cobalt.c lines 129-144).  The
process-wide table is passed explicitly as `cache`. -/
def cobalt_Newton_step (cache : List Nat) (v : cobalt_vars) : cobalt_vars :=
  if v.count < REC_INV_SQRT_CACHE ∧ cache.getD v.count 0 ≠ 0 then
    { v with rec_inv_sqrt := cache.getD v.count 0 }
  else
    { v with rec_inv_sqrt := cobalt_Newton_general v.count v.rec_inv_sqrt }

/-- Model of the for loop of cobalt_cache_init (src/cobalt.c lines
154-161).  The C loop runs v.count from 1 while v.count < 16, that is,
exactly 15 iterations; `fuel` counts the remaining iterations, which
makes the recursion structural. -/
def cobalt_cache_loop : Nat → List Nat → cobalt_vars → List Nat
  | 0, cache, _ => cache
  | fuel + 1, cache, v =>
    let v1 := cobalt_Newton_step cache v
    let v2 := cobalt_Newton_step cache v1
    let v3 := cobalt_Newton_step cache v2
    let v4 := cobalt_Newton_step cache v3
    cobalt_cache_loop fuel (cache.set v.count v4.rec_inv_sqrt) { v4 with count := v4.count + 1 }

/-- Effect of cobalt_cache_init (src/cobalt.c lines 146-162) on the
process-wide table `c`: seed entry 0 with the maximal fraction
(~0U >> REC_INV_SQRT_SHIFT) and fill entries 1..15 by the loop.  The
nested cobalt_vars_init call at line 150 is modelled here only by its
effect on the local v (zero initialization); its recursion back into
the table construction is modelled separately by cobalt_vars_init_run. -/
def cobalt_cache_init_on (c : List Nat) : List Nat :=
  cobalt_cache_loop (REC_INV_SQRT_CACHE - 1)
    (c.set 0 (u32max / 2 ^ REC_INV_SQRT_SHIFT))
    { cobalt_vars_default with count := 1, rec_inv_sqrt := u32max / 2 ^ REC_INV_SQRT_SHIFT }

/-- The reciprocal-square-root table as cobalt_cache_init fills it,
starting from the all-zero static array of src/cobalt.c line 121. -/
def cobalt_rec_inv_sqrt_cache : List Nat :=
  cobalt_cache_init_on (List.replicate REC_INV_SQRT_CACHE 0)

/-- Value obtained by seeding count = 0 with the maximal representable
32-bit fraction and applying four general-path Newton refinement steps
per increment of count: the reference path the spec compares the table
against. -/
def cobalt_general_iter : Nat → Nat
  | 0 => u32max / 2 ^ REC_INV_SQRT_SHIFT
  | k + 1 =>
    cobalt_Newton_general (k + 1)
      (cobalt_Newton_general (k + 1)
        (cobalt_Newton_general (k + 1)
          (cobalt_Newton_general (k + 1) (cobalt_general_iter k))))

mutual

/-- Call-depth-indexed model of cobalt_vars_init (src/cobalt.c lines
164-172) acting on the process-wide table (the identifier
cobalt_rev_inv_sqrt_cache at lines 168 and 170 is read as the declared
table cobalt_rec_inv_sqrt_cache).  `none` means the call made more than
`fuel` nested calls, so `∀ fuel, ... = none` means divergence.  The
result is the table state after the call. -/
def cobalt_vars_init_run : Nat → List Nat → Option (List Nat)
  | 0, _ => none
  | fuel + 1, cache =>
    if cache.getD 0 0 = 0 then
      match cobalt_cache_init_run fuel cache with
      | none => none
      | some c => some (c.set 0 u32max)
    else some cache

/-- Call-depth-indexed model of cobalt_cache_init (src/cobalt.c lines
146-162): it first calls cobalt_vars_init on the local v (line 150,
before any table entry is written), then fills the table. -/
def cobalt_cache_init_run : Nat → List Nat → Option (List Nat)
  | 0, _ => none
  | fuel + 1, cache =>
    match cobalt_vars_init_run fuel cache with
    | none => none
    | some c => some (cobalt_cache_init_on c)

end

/-- Model of reciprocal_scale from linux/reciprocal_div.h as used at
src/cobalt.c line 183: both arguments are u32 (the u64 interval is
truncated when passed), the double-width product keeps the top 32
bits. -/
def reciprocal_scale (val ep_ro : Nat) : Nat :=
  val % u32lim * (ep_ro % u32lim) / 2 ^ 32

/-- Model of cobalt_control_law (src/cobalt.c lines 179-185). -/
def cobalt_control_law (t interval ris : Nat) : Nat :=
  (t + reciprocal_scale interval (ris * 2 ^ REC_INV_SQRT_SHIFT)) % u64lim

/-- Saturating u32 increment from src/cobalt.c lines 248-250:
count++ wraps, and if the result is 0 the following count-- wraps it
back to the maximum. -/
def u32_sat_inc (c : Nat) : Nat :=
  let c1 := (c + 1) % u32lim
  if c1 = 0 then (c1 + u32max) % u32lim else c1

/-- Saturating u32 addition from src/cobalt.c lines 191-193: wrapping
add, then clamp to ~0 when the sum wrapped below the addend. -/
def u32_sat_add (a b : Nat) : Nat :=
  let s := (a + b) % u32lim
  if s < b then u32max else s

/-- Flooring u32 subtraction from src/cobalt.c lines 206-209. -/
def u32_floor_sub (a b : Nat) : Nat :=
  if a < b then 0 else a - b

/-- Model of cobalt_queue_full (src/cobalt.c lines 188-200). -/
def cobalt_queue_full (v : cobalt_vars) (p : cobalt_params) (now : Nat) : cobalt_vars :=
  let v1 :=
    if u64_sub now v.blue_timer > p.target then
      { v with p_drop := u32_sat_add v.p_drop p.p_inc, blue_timer := now }
    else v
  let v2 : cobalt_vars := { v1 with dropping := true, drop_next := now }
  if v2.count = 0 then { v2 with count := 1 } else v2

/-- Model of cobalt_queue_empty (src/cobalt.c lines 203-213). -/
def cobalt_queue_empty (v : cobalt_vars) (p : cobalt_params) (now : Nat) : cobalt_vars :=
  let v1 :=
    if u64_sub now v.blue_timer > p.target then
      { v with p_drop := u32_floor_sub v.p_drop p.p_dec, blue_timer := now }
    else v
  { v1 with dropping := false }

/-- next_due of src/cobalt.c line 229: count is nonzero and the s64
difference now - drop_next is nonnegative, that is, its u64 bit
pattern is below 2 ^ 63. -/
def cobalt_next_due (v : cobalt_vars) (now : Nat) : Bool :=
  (v.count != 0) && decide (u64_sub now v.drop_next < 2 ^ 63)

/-- over_target of src/cobalt.c line 228: the s64 sojourn is converted
back to u64 by the usual arithmetic conversions when compared with the
u64 target, so the comparison is on the wrapped u64 difference. -/
def cobalt_over_target (p : cobalt_params) (now enq : Nat) : Bool :=
  decide (u64_sub now enq > p.target)

/-- State-transition block of cobalt_should_drop
(src/cobalt.c lines 233-242), acting on vars after ecn_marked was
cleared. -/
def cobalt_sd_transition (v : cobalt_vars) (p : cobalt_params) (now : Nat)
    (over_target : Bool) : cobalt_vars :=
  if over_target then
    let va :=
      if v.dropping then v
      else { v with dropping := true, drop_next := (now + p.interval) % u64lim }
    if va.count = 0 then { va with count := 1 } else va
  else if v.dropping then { v with dropping := false } else v

/-- Action taken on the packet that is due while dropping
(src/cobalt.c lines 245-252): record the mark outcome, bump count with
saturation, refine rec_inv_sqrt, and advance drop_next by the control
law. -/
def cobalt_sd_due_update (cache : List Nat) (p : cobalt_params) (markOk : Bool)
    (v : cobalt_vars) : cobalt_vars :=
  let v3 : cobalt_vars := { v with ecn_marked := markOk, count := u32_sat_inc v.count }
  let v4 := cobalt_Newton_step cache v3
  { v4 with drop_next := cobalt_control_law v4.drop_next p.interval v4.rec_inv_sqrt }

/-- Termination measure for the resynchronization loop: the u32 count,
except that a zero count first wraps to u32max, so it sits above every
nonzero value. -/
def resync_meas (v : cobalt_vars) : Nat :=
  if v.count % u32lim = 0 then u32lim else v.count % u32lim

/-- Body of one iteration of the while loop at src/cobalt.c lines
254-260: wrapping decrement of count, Newton step, control law. -/
def cobalt_resync_body (cache : List Nat) (interval : Nat) (v : cobalt_vars) : cobalt_vars :=
  let v1 : cobalt_vars := { v with count := (v.count + u32max) % u32lim }
  let v2 := cobalt_Newton_step cache v1
  { v2 with drop_next := cobalt_control_law v2.drop_next interval v2.rec_inv_sqrt }

set_option maxRecDepth 4096 in
/-- Model of the while loop at src/cobalt.c lines 254-260, entered
when next_due already held; each recursive entry corresponds to the
recomputed next_due test at line 259. -/
def cobalt_resync (cache : List Nat) (interval now : Nat) (v : cobalt_vars) : cobalt_vars :=
  let v3 := cobalt_resync_body cache interval v
  if h : cobalt_next_due v3 now = true then cobalt_resync cache interval now v3 else v3
termination_by resync_meas v
decreasing_by
  simp only [cobalt_next_due, Bool.and_eq_true, bne_iff_ne, ne_eq, decide_eq_true_eq] at h
  have hN : ∀ w, (cobalt_Newton_step cache w).count = w.count := by
    intro w; unfold cobalt_Newton_step; split <;> rfl
  have hb : (cobalt_resync_body cache interval v).count = (v.count + u32max) % u32lim := by
    simp [cobalt_resync_body, hN]
  have h1 : (v.count + u32max) % u32lim ≠ 0 := by rw [← hb]; exact h.1
  simp only [resync_meas, hb, u32lim, u32max] at h1 ⊢
  split <;> split <;> omega

/-- Model of cobalt_should_drop (src/cobalt.c lines 218-268).  The
packet is represented by its enqueue timestamp `enq`; the host
capabilities INET_ECN_set_ce and prandom_u32 are the inputs `markOk`
and `rand`.  Returns the drop verdict and the updated vars. -/
def cobalt_should_drop (cache : List Nat) (v : cobalt_vars) (p : cobalt_params)
    (now enq : Nat) (markOk : Bool) (rand : Nat) : Bool × cobalt_vars :=
  let next_due := cobalt_next_due v now
  let v1 := cobalt_sd_transition { v with ecn_marked := false } p now
    (cobalt_over_target p now enq)
  if next_due && v1.dropping then
    let v5 := cobalt_sd_due_update cache p markOk v1
    ((!markOk) || ((v5.p_drop != 0) && decide (rand % u32lim < v5.p_drop)), v5)
  else
    let v2 := if next_due then cobalt_resync cache p.interval now v1 else v1
    ((v2.p_drop != 0) && decide (rand % u32lim < v2.p_drop), v2)

/-- One external event on a queue: a dequeued packet handed to
cobalt_should_drop, an overflow handed to cobalt_queue_full, or a
drained queue handed to cobalt_queue_empty. -/
inductive cobalt_event where
  | dequeue (now enq : Nat) (markOk : Bool) (rand : Nat)
  | queueFull (now : Nat)
  | queueEmpty (now : Nat)

/-- Effect of one event on cobalt_vars. -/
def cobalt_step (cache : List Nat) (p : cobalt_params) (v : cobalt_vars) :
    cobalt_event → cobalt_vars
  | .dequeue now enq markOk rand => (cobalt_should_drop cache v p now enq markOk rand).2
  | .queueFull now => cobalt_queue_full v p now
  | .queueEmpty now => cobalt_queue_empty v p now

/-- Effect of a sequence of events. -/
def cobalt_run (cache : List Nat) (p : cobalt_params) :
    cobalt_vars → List cobalt_event → cobalt_vars
  | v, [] => v
  | v, e :: es => cobalt_run cache p (cobalt_step cache p v e) es

/-- Range invariant for the u32 fields the saturation claims are
about. -/
def cobalt_vars_wf (v : cobalt_vars) : Prop :=
  v.count ≤ u32max ∧ v.p_drop ≤ u32max

theorem Newton_step_count (cache : List Nat) (v : cobalt_vars) :
    (cobalt_Newton_step cache v).count = v.count := by
  unfold cobalt_Newton_step; split <;> rfl

theorem Newton_step_drop_next (cache : List Nat) (v : cobalt_vars) :
    (cobalt_Newton_step cache v).drop_next = v.drop_next := by
  unfold cobalt_Newton_step; split <;> rfl

theorem Newton_step_blue_timer (cache : List Nat) (v : cobalt_vars) :
    (cobalt_Newton_step cache v).blue_timer = v.blue_timer := by
  unfold cobalt_Newton_step; split <;> rfl

theorem Newton_step_p_drop (cache : List Nat) (v : cobalt_vars) :
    (cobalt_Newton_step cache v).p_drop = v.p_drop := by
  unfold cobalt_Newton_step; split <;> rfl

theorem Newton_step_dropping (cache : List Nat) (v : cobalt_vars) :
    (cobalt_Newton_step cache v).dropping = v.dropping := by
  unfold cobalt_Newton_step; split <;> rfl

theorem Newton_step_ecn (cache : List Nat) (v : cobalt_vars) :
    (cobalt_Newton_step cache v).ecn_marked = v.ecn_marked := by
  unfold cobalt_Newton_step; split <;> rfl

theorem mod_u32_le (x : Nat) : x % u32lim ≤ u32max := by
  simp only [u32lim, u32max]; omega

theorem resync_body_count (cache : List Nat) (interval : Nat) (v : cobalt_vars) :
    (cobalt_resync_body cache interval v).count = (v.count + u32max) % u32lim := by
  simp [cobalt_resync_body, Newton_step_count]

theorem resync_body_frame (cache : List Nat) (interval : Nat) (v : cobalt_vars) :
    (cobalt_resync_body cache interval v).p_drop = v.p_drop ∧
      (cobalt_resync_body cache interval v).blue_timer = v.blue_timer ∧
      (cobalt_resync_body cache interval v).dropping = v.dropping ∧
      (cobalt_resync_body cache interval v).ecn_marked = v.ecn_marked := by
  simp [cobalt_resync_body, Newton_step_p_drop, Newton_step_blue_timer,
    Newton_step_dropping, Newton_step_ecn]

theorem resync_spec (cache : List Nat) (interval now : Nat) :
    ∀ n v, resync_meas v ≤ n →
      (cobalt_resync cache interval now v).p_drop = v.p_drop ∧
        (cobalt_resync cache interval now v).blue_timer = v.blue_timer ∧
        (cobalt_resync cache interval now v).dropping = v.dropping ∧
        (cobalt_resync cache interval now v).ecn_marked = v.ecn_marked ∧
        (cobalt_resync cache interval now v).count ≤ u32max := by
  intro n
  induction n with
  | zero =>
    intro v hv
    exact absurd hv (by simp only [resync_meas, u32lim]; split <;> omega)
  | succ n ih =>
    intro v hv
    rw [cobalt_resync]
    split
    case isTrue h =>
      have hlt : resync_meas (cobalt_resync_body cache interval v) < resync_meas v := by
        simp only [cobalt_next_due, Bool.and_eq_true, bne_iff_ne, ne_eq,
          decide_eq_true_eq] at h
        have h1 : (v.count + u32max) % u32lim ≠ 0 := by
          rw [← resync_body_count cache interval v]; exact h.1
        simp only [resync_meas, resync_body_count, u32lim, u32max] at h1 ⊢
        split <;> split <;> omega
      have hrec := ih (cobalt_resync_body cache interval v) (by omega)
      have hb := resync_body_frame cache interval v
      exact ⟨hrec.1.trans hb.1, hrec.2.1.trans hb.2.1, hrec.2.2.1.trans hb.2.2.1,
        hrec.2.2.2.1.trans hb.2.2.2, hrec.2.2.2.2⟩
    case isFalse h =>
      have hb := resync_body_frame cache interval v
      refine ⟨hb.1, hb.2.1, hb.2.2.1, hb.2.2.2, ?_⟩
      rw [resync_body_count]
      exact mod_u32_le _

theorem resync_p_drop (cache : List Nat) (interval now : Nat) (v : cobalt_vars) :
    (cobalt_resync cache interval now v).p_drop = v.p_drop :=
  (resync_spec cache interval now (resync_meas v) v le_rfl).1

theorem resync_blue_timer (cache : List Nat) (interval now : Nat) (v : cobalt_vars) :
    (cobalt_resync cache interval now v).blue_timer = v.blue_timer :=
  (resync_spec cache interval now (resync_meas v) v le_rfl).2.1

theorem resync_dropping (cache : List Nat) (interval now : Nat) (v : cobalt_vars) :
    (cobalt_resync cache interval now v).dropping = v.dropping :=
  (resync_spec cache interval now (resync_meas v) v le_rfl).2.2.1

theorem resync_ecn (cache : List Nat) (interval now : Nat) (v : cobalt_vars) :
    (cobalt_resync cache interval now v).ecn_marked = v.ecn_marked :=
  (resync_spec cache interval now (resync_meas v) v le_rfl).2.2.2.1

theorem resync_count_le (cache : List Nat) (interval now : Nat) (v : cobalt_vars) :
    (cobalt_resync cache interval now v).count ≤ u32max :=
  (resync_spec cache interval now (resync_meas v) v le_rfl).2.2.2.2

theorem next_due_count_ne_zero (v : cobalt_vars) (now : Nat)
    (h : cobalt_next_due v now = true) : v.count ≠ 0 := by
  simp only [cobalt_next_due, Bool.and_eq_true, bne_iff_ne, ne_eq] at h
  exact h.1

theorem resync_count_decreases_aux (cache : List Nat) (interval now : Nat) :
    ∀ n v, resync_meas v ≤ n → v.count ≠ 0 → v.count ≤ u32max →
      ∃ k, 1 ≤ k ∧ k ≤ v.count ∧
        (cobalt_resync cache interval now v).count = v.count - k := by
  intro n
  induction n with
  | zero =>
    intro v hv _ _
    exact absurd hv (by simp only [resync_meas, u32lim]; split <;> omega)
  | succ n ih =>
    intro v hv h0 h1
    have hbc : (cobalt_resync_body cache interval v).count = v.count - 1 := by
      rw [resync_body_count]
      simp only [u32lim, u32max] at h1 ⊢
      omega
    rw [cobalt_resync]
    split
    case isTrue h =>
      have hlt : resync_meas (cobalt_resync_body cache interval v) < resync_meas v := by
        simp only [cobalt_next_due, Bool.and_eq_true, bne_iff_ne, ne_eq,
          decide_eq_true_eq] at h
        have h2 : (v.count + u32max) % u32lim ≠ 0 := by
          rw [← resync_body_count cache interval v]; exact h.1
        simp only [resync_meas, resync_body_count, u32lim, u32max] at h2 ⊢
        split <;> split <;> omega
      have hne : (cobalt_resync_body cache interval v).count ≠ 0 :=
        next_due_count_ne_zero _ now h
      have hle : (cobalt_resync_body cache interval v).count ≤ u32max := by
        rw [hbc]; omega
      obtain ⟨k, hk1, hk2, hk3⟩ := ih (cobalt_resync_body cache interval v) (by omega) hne hle
      rw [hbc] at hk2
      refine ⟨k + 1, by omega, by omega, ?_⟩
      rw [hk3, hbc]
      omega
    case isFalse h =>
      exact ⟨1, le_rfl, by omega, hbc⟩

theorem sd_transition_frame (v : cobalt_vars) (p : cobalt_params) (now : Nat) (ot : Bool) :
    (cobalt_sd_transition v p now ot).p_drop = v.p_drop ∧
      (cobalt_sd_transition v p now ot).blue_timer = v.blue_timer ∧
      (cobalt_sd_transition v p now ot).ecn_marked = v.ecn_marked ∧
      (cobalt_sd_transition v p now ot).rec_inv_sqrt = v.rec_inv_sqrt := by
  simp [cobalt_sd_transition, apply_ite cobalt_vars.p_drop,
    apply_ite cobalt_vars.blue_timer, apply_ite cobalt_vars.ecn_marked,
    apply_ite cobalt_vars.rec_inv_sqrt]

theorem sd_transition_count_le (v : cobalt_vars) (p : cobalt_params) (now : Nat) (ot : Bool)
    (hv : v.count ≤ u32max) : (cobalt_sd_transition v p now ot).count ≤ u32max := by
  simp only [cobalt_sd_transition, apply_ite cobalt_vars.count]
  split
  · split <;> split <;> simp_all [u32max]
  · split <;> simp_all

theorem sd_transition_id (v : cobalt_vars) (p : cobalt_params) (now : Nat)
    (hd : v.dropping = true) (hc : v.count ≠ 0) :
    cobalt_sd_transition v p now true = v := by
  simp [cobalt_sd_transition, hd, hc]

theorem sd_due_update_fields (cache : List Nat) (p : cobalt_params) (markOk : Bool)
    (v : cobalt_vars) :
    (cobalt_sd_due_update cache p markOk v).p_drop = v.p_drop ∧
      (cobalt_sd_due_update cache p markOk v).blue_timer = v.blue_timer ∧
      (cobalt_sd_due_update cache p markOk v).dropping = v.dropping ∧
      (cobalt_sd_due_update cache p markOk v).ecn_marked = markOk ∧
      (cobalt_sd_due_update cache p markOk v).count = u32_sat_inc v.count := by
  simp [cobalt_sd_due_update, Newton_step_p_drop, Newton_step_blue_timer,
    Newton_step_dropping, Newton_step_ecn, Newton_step_count]

theorem u32_sat_inc_le (c : Nat) : u32_sat_inc c ≤ u32max := by
  simp only [u32_sat_inc]
  split <;> simp [u32lim, u32max] <;> omega

theorem u32_sat_inc_eq_min (c : Nat) (hc : c ≤ u32max) :
    u32_sat_inc c = min (c + 1) u32max := by
  simp only [u32_sat_inc, u32lim, u32max] at *
  split <;> omega

theorem u32_sat_inc_eq_succ (c : Nat) (hc : c < u32max) : u32_sat_inc c = c + 1 := by
  simp only [u32_sat_inc, u32lim, u32max] at *
  split <;> omega

theorem u32_sat_add_le (a b : Nat) : u32_sat_add a b ≤ u32max := by
  simp only [u32_sat_add]
  split <;> simp [u32lim, u32max] <;> omega

theorem u32_sat_add_eq_min (a b : Nat) (ha : a ≤ u32max) (hb : b ≤ u32max) :
    u32_sat_add a b = min (a + b) u32max := by
  simp only [u32_sat_add, u32lim, u32max] at *
  split <;> omega

theorem u32_floor_sub_eq (a b : Nat) : u32_floor_sub a b = a - b := by
  simp only [u32_floor_sub]
  split <;> omega

theorem reciprocal_scale_lt (val ep_ro : Nat) : reciprocal_scale val ep_ro < u32lim := by
  have h3 : val % u32lim * (ep_ro % u32lim) < u32lim * 2 ^ 32 :=
    Nat.lt_of_lt_of_le
      (Nat.mul_lt_mul_of_lt_of_lt (Nat.mod_lt _ (by decide)) (Nat.mod_lt _ (by decide)))
      (by norm_num [u32lim])
  exact Nat.div_lt_of_lt_mul h3

theorem should_drop_p_drop (cache : List Nat) (v : cobalt_vars) (p : cobalt_params)
    (now enq : Nat) (mk : Bool) (r : Nat) :
    ((cobalt_should_drop cache v p now enq mk r).2).p_drop = v.p_drop := by
  simp only [cobalt_should_drop]
  split
  · simp only [Prod.snd]
    rw [(sd_due_update_fields _ _ _ _).1, (sd_transition_frame _ _ _ _).1]
  · simp only [Prod.snd]
    split
    · rw [resync_p_drop, (sd_transition_frame _ _ _ _).1]
    · rw [(sd_transition_frame _ _ _ _).1]

theorem should_drop_blue_timer (cache : List Nat) (v : cobalt_vars) (p : cobalt_params)
    (now enq : Nat) (mk : Bool) (r : Nat) :
    ((cobalt_should_drop cache v p now enq mk r).2).blue_timer = v.blue_timer := by
  simp only [cobalt_should_drop]
  split
  · simp only [Prod.snd]
    rw [(sd_due_update_fields _ _ _ _).2.1, (sd_transition_frame _ _ _ _).2.1]
  · simp only [Prod.snd]
    split
    · rw [resync_blue_timer, (sd_transition_frame _ _ _ _).2.1]
    · rw [(sd_transition_frame _ _ _ _).2.1]

theorem should_drop_count_le (cache : List Nat) (v : cobalt_vars) (p : cobalt_params)
    (now enq : Nat) (mk : Bool) (r : Nat) (hv : v.count ≤ u32max) :
    ((cobalt_should_drop cache v p now enq mk r).2).count ≤ u32max := by
  simp only [cobalt_should_drop]
  split
  · simp only [Prod.snd]
    rw [(sd_due_update_fields _ _ _ _).2.2.2.2]
    exact u32_sat_inc_le _
  · simp only [Prod.snd]
    split
    · exact resync_count_le _ _ _ _
    · exact sd_transition_count_le _ _ _ _ hv

theorem queue_full_fields (v : cobalt_vars) (p : cobalt_params) (now : Nat) :
    (cobalt_queue_full v p now).p_drop =
        (if u64_sub now v.blue_timer > p.target then u32_sat_add v.p_drop p.p_inc
         else v.p_drop) ∧
      (cobalt_queue_full v p now).blue_timer =
        (if u64_sub now v.blue_timer > p.target then now else v.blue_timer) ∧
      (cobalt_queue_full v p now).dropping = true ∧
      (cobalt_queue_full v p now).drop_next = now ∧
      (cobalt_queue_full v p now).count = (if v.count = 0 then 1 else v.count) := by
  simp only [cobalt_queue_full, apply_ite cobalt_vars.p_drop,
    apply_ite cobalt_vars.blue_timer, apply_ite cobalt_vars.dropping,
    apply_ite cobalt_vars.drop_next, apply_ite cobalt_vars.count]
  refine ⟨?_, ?_, ?_, ?_, ?_⟩ <;> (try split) <;> simp <;> (try split) <;> simp

theorem queue_empty_fields (v : cobalt_vars) (p : cobalt_params) (now : Nat) :
    (cobalt_queue_empty v p now).p_drop =
        (if u64_sub now v.blue_timer > p.target then u32_floor_sub v.p_drop p.p_dec
         else v.p_drop) ∧
      (cobalt_queue_empty v p now).blue_timer =
        (if u64_sub now v.blue_timer > p.target then now else v.blue_timer) ∧
      (cobalt_queue_empty v p now).dropping = false ∧
      (cobalt_queue_empty v p now).count = v.count ∧
      (cobalt_queue_empty v p now).drop_next = v.drop_next := by
  simp only [cobalt_queue_empty, apply_ite cobalt_vars.p_drop,
    apply_ite cobalt_vars.blue_timer, apply_ite cobalt_vars.dropping,
    apply_ite cobalt_vars.count, apply_ite cobalt_vars.drop_next]
  refine ⟨?_, ?_, ?_, ?_, ?_⟩ <;> (try split) <;> simp

theorem step_wf (cache : List Nat) (p : cobalt_params) (v : cobalt_vars)
    (e : cobalt_event) (hv : cobalt_vars_wf v) :
    cobalt_vars_wf (cobalt_step cache p v e) := by
  obtain ⟨hc, hp⟩ := hv
  cases e with
  | dequeue now enq mk r =>
    exact ⟨should_drop_count_le _ _ _ _ _ _ _ hc,
      by rw [cobalt_step, should_drop_p_drop]; exact hp⟩
  | queueFull now =>
    refine ⟨?_, ?_⟩
    · rw [cobalt_step, (queue_full_fields _ _ _).2.2.2.2]
      split <;> simp_all [u32max]
    · rw [cobalt_step, (queue_full_fields _ _ _).1]
      split
      · exact u32_sat_add_le _ _
      · exact hp
  | queueEmpty now =>
    refine ⟨?_, ?_⟩
    · rw [cobalt_step, (queue_empty_fields _ _ _).2.2.2.1]; exact hc
    · rw [cobalt_step, (queue_empty_fields _ _ _).1]
      split
      · rw [u32_floor_sub_eq]; omega
      · exact hp

theorem run_wf (cache : List Nat) (p : cobalt_params) (evs : List cobalt_event)
    (v : cobalt_vars) (hv : cobalt_vars_wf v) :
    cobalt_vars_wf (cobalt_run cache p v evs) := by
  induction evs generalizing v with
  | nil => exact hv
  | cons e es ih => exact ih _ (step_wf cache p v e hv)

theorem should_drop_dropping_final (cache : List Nat) (v : cobalt_vars) (p : cobalt_params)
    (now enq : Nat) (mk : Bool) (r : Nat) :
    ((cobalt_should_drop cache v p now enq mk r).2).dropping =
      (cobalt_sd_transition { v with ecn_marked := false } p now
        (cobalt_over_target p now enq)).dropping := by
  simp only [cobalt_should_drop]
  split
  · simp only [Prod.snd]
    exact (sd_due_update_fields _ _ _ _).2.2.1
  · simp only [Prod.snd]
    split
    · exact resync_dropping _ _ _ _
    · rfl

theorem should_drop_ecn_char (cache : List Nat) (v : cobalt_vars) (p : cobalt_params)
    (now enq : Nat) (mk : Bool) (r : Nat) :
    ((cobalt_should_drop cache v p now enq mk r).2).ecn_marked =
      (cobalt_next_due v now &&
        (cobalt_sd_transition { v with ecn_marked := false } p now
          (cobalt_over_target p now enq)).dropping && mk) := by
  simp only [cobalt_should_drop]
  split
  case isTrue h =>
    simp only [Prod.snd]
    rw [(sd_due_update_fields _ _ _ _).2.2.2.1, h]
    simp
  case isFalse h =>
    simp only [Bool.not_eq_true] at h
    simp only [Prod.snd]
    rw [h]
    split
    · rw [resync_ecn, (sd_transition_frame _ _ _ _).2.2.1]
      simp
    · rw [(sd_transition_frame _ _ _ _).2.2.1]
      simp

theorem vars_init_diverges_aux :
    ∀ fuel, cobalt_vars_init_run fuel (List.replicate REC_INV_SQRT_CACHE 0) = none ∧
      cobalt_cache_init_run fuel (List.replicate REC_INV_SQRT_CACHE 0) = none := by
  intro fuel
  induction fuel with
  | zero => exact ⟨rfl, rfl⟩
  | succ n ih =>
    refine ⟨?_, ?_⟩
    · rw [cobalt_vars_init_run, ih.2]
      simp
    · rw [cobalt_cache_init_run, ih.1]

theorem should_drop_snd_due (cache : List Nat) (v : cobalt_vars) (p : cobalt_params)
    (now enq : Nat) (mk : Bool) (r : Nat)
    (h : (cobalt_next_due v now &&
        (cobalt_sd_transition { v with ecn_marked := false } p now
          (cobalt_over_target p now enq)).dropping) = true) :
    (cobalt_should_drop cache v p now enq mk r).2 =
      cobalt_sd_due_update cache p mk
        (cobalt_sd_transition { v with ecn_marked := false } p now
          (cobalt_over_target p now enq)) := by
  simp only [cobalt_should_drop, h, if_true]

theorem should_drop_snd_notdue (cache : List Nat) (v : cobalt_vars) (p : cobalt_params)
    (now enq : Nat) (mk : Bool) (r : Nat)
    (h : cobalt_next_due v now = false) :
    (cobalt_should_drop cache v p now enq mk r).2 =
      cobalt_sd_transition { v with ecn_marked := false } p now
        (cobalt_over_target p now enq) := by
  simp only [cobalt_should_drop, h, Bool.false_and, Bool.false_eq_true, if_false]

theorem control_law_ge (t i ris : Nat) (h : t + u32lim ≤ u64lim) :
    t ≤ cobalt_control_law t i ris := by
  have hs := reciprocal_scale_lt i (ris * 2 ^ REC_INV_SQRT_SHIFT)
  rw [cobalt_control_law, Nat.mod_eq_of_lt (by omega)]
  omega

theorem sd_due_update_drop_next_ge (cache : List Nat) (p : cobalt_params) (mk : Bool)
    (w : cobalt_vars) (h : w.drop_next + u32lim ≤ u64lim) :
    w.drop_next ≤ (cobalt_sd_due_update cache p mk w).drop_next := by
  simp only [cobalt_sd_due_update]
  rw [Newton_step_drop_next]
  exact control_law_ge _ _ _ h

/-- Claim C1 (refuted, code bug): the first cobalt_vars_init call on the
untouched all-zero table never completes.  cobalt_vars_init calls
cobalt_cache_init, which re-enters cobalt_vars_init at line 150 before
any table entry has been written, so for every bound on the nested call
depth the computation is still unfinished, contradicting the claim that
every entry point terminates and that the first init finishes the lazy
table construction. -/
theorem cobalt_vars_init_first_call_diverges :
    ∀ fuel, cobalt_vars_init_run fuel (List.replicate REC_INV_SQRT_CACHE 0) = none :=
  fun fuel => (vars_init_diverges_aux fuel).1

/-- Claim C2: over every sequence of should_drop, queue_full and
queue_empty events from initialized Vars, count and p_drop stay within
the u32 range; the count increment of the due branch is exactly
saturating (min with the maximum), the p_drop increment of queue_full
is exactly saturating, and the p_drop decrement of queue_empty is the
truncated subtraction, which floors at zero.  Moreover count is only
ever decremented when nonzero: the next_due guard that triggers every
decrement requires a nonzero count, and the resynchronization loop
entered at a nonzero in-range count removes exactly k decrements with
1 ≤ k ≤ count, ending at count - k, so a decrement never wraps the
count past zero (a wrapping decrement would leave the loop above its
starting count, which count - k excludes). -/
theorem count_p_drop_never_wrap :
    (∀ cache p evs, cobalt_vars_wf (cobalt_run cache p cobalt_vars_default evs)) ∧
      (∀ c, c ≤ u32max → u32_sat_inc c = min (c + 1) u32max) ∧
      (∀ a b, a ≤ u32max → b ≤ u32max → u32_sat_add a b = min (a + b) u32max) ∧
      (∀ a b, u32_floor_sub a b = a - b) ∧
      (∀ v now, cobalt_next_due v now = true → v.count ≠ 0) ∧
      (∀ cache interval now v, v.count ≠ 0 → v.count ≤ u32max →
        ∃ k, 1 ≤ k ∧ k ≤ v.count ∧
          (cobalt_resync cache interval now v).count = v.count - k) :=
  ⟨fun cache p evs => run_wf cache p evs _ ⟨Nat.zero_le _, Nat.zero_le _⟩,
    u32_sat_inc_eq_min, u32_sat_add_eq_min, u32_floor_sub_eq,
    next_due_count_ne_zero,
    fun cache interval now v h0 h1 =>
      resync_count_decreases_aux cache interval now (resync_meas v) v le_rfl h0 h1⟩

theorem count_p_drop_never_wrap_witness :
    cobalt_vars_wf (cobalt_run []
        { interval := 1, target := 1, threshold := 1, p_inc := 1, p_dec := 1 }
        cobalt_vars_default
        [cobalt_event.queueFull 5, cobalt_event.dequeue 6 0 true 0,
          cobalt_event.queueEmpty 9]) ∧
      (5 : Nat) ≤ u32max ∧ u32_sat_inc 5 = min (5 + 1) u32max ∧
      (3 : Nat) ≤ u32max ∧ (4 : Nat) ≤ u32max ∧
      u32_sat_add 3 4 = min (3 + 4) u32max ∧
      u32_floor_sub 2 7 = 2 - 7 ∧
      cobalt_next_due ⟨1, 0, 5, 0, 0, false, false⟩ 5 = true ∧
      (1 : Nat) ≠ 0 ∧
      (2 : Nat) ≠ 0 ∧ (2 : Nat) ≤ u32max ∧
      (∃ k, 1 ≤ k ∧ k ≤ (2 : Nat) ∧
        (cobalt_resync [] 0 0 ⟨2, 0, 0, 0, 0, false, false⟩).count = 2 - k) :=
  ⟨count_p_drop_never_wrap.1 [] _ _, by decide,
    count_p_drop_never_wrap.2.1 5 (by decide), by decide, by decide,
    count_p_drop_never_wrap.2.2.1 3 4 (by decide) (by decide),
    count_p_drop_never_wrap.2.2.2.1 2 7, by decide,
    count_p_drop_never_wrap.2.2.2.2.1 ⟨1, 0, 5, 0, 0, false, false⟩ 5 (by decide),
    by decide, by decide,
    count_p_drop_never_wrap.2.2.2.2.2 [] 0 0 ⟨2, 0, 0, 0, 0, false, false⟩
      (by decide) (by decide)⟩

/-- Claim C3: queue_full updates p_drop by a saturating p_inc increment
and stamps blue_timer with now exactly when now - blue_timer exceeds
target, and unconditionally enters DROPPING, sets drop_next to now, and
raises a zero count to one while leaving a nonzero count unchanged. -/
theorem cobalt_queue_full_spec (v : cobalt_vars) (p : cobalt_params) (now : Nat)
    (hpd : v.p_drop ≤ u32max) (hpi : p.p_inc ≤ u32max) :
    (cobalt_queue_full v p now).p_drop =
        (if u64_sub now v.blue_timer > p.target then min (v.p_drop + p.p_inc) u32max
         else v.p_drop) ∧
      (cobalt_queue_full v p now).blue_timer =
        (if u64_sub now v.blue_timer > p.target then now else v.blue_timer) ∧
      (cobalt_queue_full v p now).dropping = true ∧
      (cobalt_queue_full v p now).drop_next = now ∧
      (cobalt_queue_full v p now).count = (if v.count = 0 then 1 else v.count) := by
  obtain ⟨h1, h2, h3, h4, h5⟩ := queue_full_fields v p now
  refine ⟨?_, h2, h3, h4, h5⟩
  rw [h1, u32_sat_add_eq_min _ _ hpd hpi]

theorem cobalt_queue_full_spec_witness :
    (7 : Nat) ≤ u32max ∧ (4 : Nat) ≤ u32max ∧
      ((cobalt_queue_full ⟨0, 0, 0, 0, 7, false, false⟩ ⟨1, 2, 3, 4, 5⟩ 10).p_drop =
          (if u64_sub 10 0 > 2 then min (7 + 4) u32max else 7) ∧
        (cobalt_queue_full ⟨0, 0, 0, 0, 7, false, false⟩ ⟨1, 2, 3, 4, 5⟩ 10).blue_timer =
          (if u64_sub 10 0 > 2 then 10 else 0) ∧
        (cobalt_queue_full ⟨0, 0, 0, 0, 7, false, false⟩ ⟨1, 2, 3, 4, 5⟩ 10).dropping = true ∧
        (cobalt_queue_full ⟨0, 0, 0, 0, 7, false, false⟩ ⟨1, 2, 3, 4, 5⟩ 10).drop_next = 10 ∧
        (cobalt_queue_full ⟨0, 0, 0, 0, 7, false, false⟩ ⟨1, 2, 3, 4, 5⟩ 10).count =
          (if (0 : Nat) = 0 then 1 else 0)) :=
  ⟨by decide, by decide,
    cobalt_queue_full_spec ⟨0, 0, 0, 0, 7, false, false⟩ ⟨1, 2, 3, 4, 5⟩ 10
      (by decide) (by decide)⟩

/-- Claim C4: queue_empty decrements p_drop by p_dec and stamps
blue_timer with now exactly when now - blue_timer exceeds target, the
decrement floors at zero (exactly zero when p_drop < p_dec), and the
call unconditionally leaves DROPPING. -/
theorem cobalt_queue_empty_spec (v : cobalt_vars) (p : cobalt_params) (now : Nat) :
    (cobalt_queue_empty v p now).p_drop =
        (if u64_sub now v.blue_timer > p.target then v.p_drop - p.p_dec else v.p_drop) ∧
      (u64_sub now v.blue_timer > p.target → v.p_drop < p.p_dec →
        (cobalt_queue_empty v p now).p_drop = 0) ∧
      (cobalt_queue_empty v p now).blue_timer =
        (if u64_sub now v.blue_timer > p.target then now else v.blue_timer) ∧
      (cobalt_queue_empty v p now).dropping = false := by
  obtain ⟨h1, h2, h3, _, _⟩ := queue_empty_fields v p now
  refine ⟨?_, ?_, h2, h3⟩
  · rw [h1, u32_floor_sub_eq]
  · intro hc hlt
    rw [h1, if_pos hc, u32_floor_sub_eq]
    omega

theorem cobalt_queue_empty_spec_witness :
    u64_sub 10 0 > 2 ∧ (3 : Nat) < 5 ∧
      (cobalt_queue_empty ⟨0, 0, 0, 0, 3, true, false⟩ ⟨1, 2, 3, 4, 5⟩ 10).p_drop = 0 :=
  ⟨by decide, by decide,
    (cobalt_queue_empty_spec ⟨0, 0, 0, 0, 3, true, false⟩ ⟨1, 2, 3, 4, 5⟩ 10).2.1
      (by decide) (by decide)⟩

/-- Claim C5: every cached table entry for count in [0,15] equals the
value obtained from the seed by four general-path Newton refinements
per increment of count, and every such entry is nonzero, so the
table-lookup path of cobalt_Newton_step returns exactly the
general-path value on the cached range. -/
theorem cache_matches_general_path :
    ∀ k, k < REC_INV_SQRT_CACHE →
      cobalt_rec_inv_sqrt_cache.getD k 0 = cobalt_general_iter k ∧
        cobalt_rec_inv_sqrt_cache.getD k 0 ≠ 0 := by
  decide

theorem cache_matches_general_path_witness :
    7 < REC_INV_SQRT_CACHE ∧
      (cobalt_rec_inv_sqrt_cache.getD 7 0 = cobalt_general_iter 7 ∧
        cobalt_rec_inv_sqrt_cache.getD 7 0 ≠ 0) :=
  ⟨by decide, cache_matches_general_path 7 (by decide)⟩

/-- Claim C6: should_drop never touches the BLUE state: for every
input, the returned Vars carry the same p_drop and blue_timer as the
argument. -/
theorem should_drop_preserves_blue_state (cache : List Nat) (v : cobalt_vars)
    (p : cobalt_params) (now enq : Nat) (mk : Bool) (r : Nat) :
    ((cobalt_should_drop cache v p now enq mk r).2).p_drop = v.p_drop ∧
      ((cobalt_should_drop cache v p now enq mk r).2).blue_timer = v.blue_timer :=
  ⟨should_drop_p_drop cache v p now enq mk r,
    should_drop_blue_timer cache v p now enq mk r⟩

/-- Claim C7: with target 5 ms and interval 100 ms, one should_drop
call at now = 0 on fresh Vars with a 6 ms sojourn enters DROPPING,
schedules drop_next at 100 ms, sets count to 1, marks nothing, and
returns false, whatever the marking capability and random draw would
have produced. -/
theorem first_over_target_packet_scenario :
    ∀ (mk : Bool) (r : Nat),
      cobalt_should_drop cobalt_rec_inv_sqrt_cache cobalt_vars_default
          { interval := 100000000, target := 5000000, threshold := 0, p_inc := 0, p_dec := 0 }
          0 (u64lim - 6000000) mk r =
        (false,
          { count := 1, rec_inv_sqrt := 0, drop_next := 100000000, blue_timer := 0,
            p_drop := 0, dropping := true, ecn_marked := false }) := by
  intro mk r
  rfl

/-- Claim C8 counterexample: in DROPPING state with count 1 and a
packet 6 ms over the 5 ms target, a call at now = 0 while drop_next is
still 1 s away leaves count at 1 and drop_next unchanged, refuting the
claim that every such call strictly increases count. -/
theorem stalled_schedule_leaves_count_unchanged :
    (cobalt_should_drop cobalt_rec_inv_sqrt_cache
        { count := 1, rec_inv_sqrt := u32max, drop_next := 1000000000, blue_timer := 0,
          p_drop := 0, dropping := true, ecn_marked := false }
        { interval := 100000000, target := 5000000, threshold := 0, p_inc := 0, p_dec := 0 }
        0 (u64lim - 6000000) true 0).2.count = 1 ∧
      (cobalt_should_drop cobalt_rec_inv_sqrt_cache
        { count := 1, rec_inv_sqrt := u32max, drop_next := 1000000000, blue_timer := 0,
          p_drop := 0, dropping := true, ecn_marked := false }
        { interval := 100000000, target := 5000000, threshold := 0, p_inc := 0, p_dec := 0 }
        0 (u64lim - 6000000) true 0).2.drop_next = 1000000000 :=
  ⟨rfl, rfl⟩

/-- Claim C8 as amended: in DROPPING state with an over-target sojourn,
a call that is due (count nonzero and schedule nonnegative) strictly
increases count, provided count is below its saturation maximum and
drop_next cannot overflow, and advances drop_next monotonically while
staying in DROPPING; a call that is not yet due leaves count and
drop_next unchanged. -/
theorem dropping_due_monotone (cache : List Nat) (v : cobalt_vars) (p : cobalt_params)
    (now enq : Nat) (mk : Bool) (r : Nat)
    (hd : v.dropping = true)
    (hot : cobalt_over_target p now enq = true) :
    (cobalt_next_due v now = true → v.count < u32max → v.drop_next + u32lim ≤ u64lim →
        ((cobalt_should_drop cache v p now enq mk r).2.count = v.count + 1 ∧
          v.drop_next ≤ (cobalt_should_drop cache v p now enq mk r).2.drop_next ∧
          (cobalt_should_drop cache v p now enq mk r).2.dropping = true)) ∧
      (cobalt_next_due v now = false → v.count ≠ 0 →
        ((cobalt_should_drop cache v p now enq mk r).2.count = v.count ∧
          (cobalt_should_drop cache v p now enq mk r).2.drop_next = v.drop_next ∧
          (cobalt_should_drop cache v p now enq mk r).2.dropping = true)) := by
  constructor
  · intro hdue hcnt hdn
    have hc0 : v.count ≠ 0 := by
      simp only [cobalt_next_due, Bool.and_eq_true, bne_iff_ne, ne_eq] at hdue
      exact hdue.1
    have hid : cobalt_sd_transition { v with ecn_marked := false } p now
        (cobalt_over_target p now enq) = { v with ecn_marked := false } := by
      rw [hot]
      exact sd_transition_id _ p now hd hc0
    have hcond : (cobalt_next_due v now &&
        (cobalt_sd_transition { v with ecn_marked := false } p now
          (cobalt_over_target p now enq)).dropping) = true := by
      rw [hid, hdue]
      simp [hd]
    rw [should_drop_snd_due cache v p now enq mk r hcond, hid]
    refine ⟨?_, ?_, ?_⟩
    · rw [(sd_due_update_fields _ _ _ _).2.2.2.2]
      exact u32_sat_inc_eq_succ _ hcnt
    · exact sd_due_update_drop_next_ge _ _ _ _ hdn
    · rw [(sd_due_update_fields _ _ _ _).2.2.1]
      exact hd
  · intro hnd hc0
    have hid : cobalt_sd_transition { v with ecn_marked := false } p now
        (cobalt_over_target p now enq) = { v with ecn_marked := false } := by
      rw [hot]
      exact sd_transition_id _ p now hd hc0
    rw [should_drop_snd_notdue cache v p now enq mk r hnd, hid]
    exact ⟨rfl, rfl, hd⟩

theorem dropping_due_monotone_witness :
    (⟨1, 4294967295, 0, 0, 0, true, false⟩ : cobalt_vars).dropping = true ∧
      cobalt_over_target ⟨100000000, 5000000, 0, 0, 0⟩ 0 (u64lim - 6000000) = true ∧
      cobalt_next_due ⟨1, 4294967295, 0, 0, 0, true, false⟩ 0 = true ∧
      (1 : Nat) < u32max ∧ (0 : Nat) + u32lim ≤ u64lim ∧
      ((cobalt_should_drop cobalt_rec_inv_sqrt_cache
          ⟨1, 4294967295, 0, 0, 0, true, false⟩ ⟨100000000, 5000000, 0, 0, 0⟩
          0 (u64lim - 6000000) true 0).2.count = 1 + 1 ∧
        (0 : Nat) ≤ (cobalt_should_drop cobalt_rec_inv_sqrt_cache
          ⟨1, 4294967295, 0, 0, 0, true, false⟩ ⟨100000000, 5000000, 0, 0, 0⟩
          0 (u64lim - 6000000) true 0).2.drop_next ∧
        (cobalt_should_drop cobalt_rec_inv_sqrt_cache
          ⟨1, 4294967295, 0, 0, 0, true, false⟩ ⟨100000000, 5000000, 0, 0, 0⟩
          0 (u64lim - 6000000) true 0).2.dropping = true) :=
  ⟨rfl, by decide, by decide, by decide, by decide,
    (dropping_due_monotone cobalt_rec_inv_sqrt_cache
        ⟨1, 4294967295, 0, 0, 0, true, false⟩ ⟨100000000, 5000000, 0, 0, 0⟩
        0 (u64lim - 6000000) true 0 rfl (by decide)).1
      (by decide) (by decide) (by decide)⟩

/-- Claim C9: the threshold parameter is dead: two Params differing
only in threshold give identical results and identical final Vars for
should_drop, queue_full, queue_empty, and for every event sequence. -/
theorem threshold_noninterference (p1 p2 : cobalt_params)
    (hi : p1.interval = p2.interval) (ht : p1.target = p2.target)
    (hinc : p1.p_inc = p2.p_inc) (hdec : p1.p_dec = p2.p_dec) :
    ∀ (cache : List Nat) (v : cobalt_vars) (now enq : Nat) (mk : Bool) (r : Nat)
      (evs : List cobalt_event),
      cobalt_should_drop cache v p1 now enq mk r = cobalt_should_drop cache v p2 now enq mk r ∧
        cobalt_queue_full v p1 now = cobalt_queue_full v p2 now ∧
        cobalt_queue_empty v p1 now = cobalt_queue_empty v p2 now ∧
        cobalt_run cache p1 v evs = cobalt_run cache p2 v evs := by
  obtain ⟨i1, t1, th1, pi1, pd1⟩ := p1
  obtain ⟨i2, t2, th2, pi2, pd2⟩ := p2
  simp only at hi ht hinc hdec
  subst hi; subst ht; subst hinc; subst hdec
  intro cache v now enq mk r evs
  refine ⟨rfl, rfl, rfl, ?_⟩
  induction evs generalizing v with
  | nil => rfl
  | cons e es ih =>
    simp only [cobalt_run]
    rw [show cobalt_step cache ⟨i1, t1, th1, pi1, pd1⟩ v e
        = cobalt_step cache ⟨i1, t1, th2, pi1, pd1⟩ v e from by cases e <;> rfl]
    exact ih _

theorem threshold_noninterference_witness :
    (⟨1, 2, 3, 4, 5⟩ : cobalt_params).interval = (⟨1, 2, 9, 4, 5⟩ : cobalt_params).interval ∧
      (⟨1, 2, 3, 4, 5⟩ : cobalt_params).target = (⟨1, 2, 9, 4, 5⟩ : cobalt_params).target ∧
      (⟨1, 2, 3, 4, 5⟩ : cobalt_params).p_inc = (⟨1, 2, 9, 4, 5⟩ : cobalt_params).p_inc ∧
      (⟨1, 2, 3, 4, 5⟩ : cobalt_params).p_dec = (⟨1, 2, 9, 4, 5⟩ : cobalt_params).p_dec ∧
      (cobalt_should_drop [] cobalt_vars_default ⟨1, 2, 3, 4, 5⟩ 0 0 true 0 =
          cobalt_should_drop [] cobalt_vars_default ⟨1, 2, 9, 4, 5⟩ 0 0 true 0 ∧
        cobalt_queue_full cobalt_vars_default ⟨1, 2, 3, 4, 5⟩ 0 =
          cobalt_queue_full cobalt_vars_default ⟨1, 2, 9, 4, 5⟩ 0 ∧
        cobalt_queue_empty cobalt_vars_default ⟨1, 2, 3, 4, 5⟩ 0 =
          cobalt_queue_empty cobalt_vars_default ⟨1, 2, 9, 4, 5⟩ 0 ∧
        cobalt_run [] ⟨1, 2, 3, 4, 5⟩ cobalt_vars_default [cobalt_event.queueFull 7] =
          cobalt_run [] ⟨1, 2, 9, 4, 5⟩ cobalt_vars_default [cobalt_event.queueFull 7]) :=
  ⟨rfl, rfl, rfl, rfl,
    threshold_noninterference ⟨1, 2, 3, 4, 5⟩ ⟨1, 2, 9, 4, 5⟩ rfl rfl rfl rfl
      [] cobalt_vars_default 0 0 true 0 [cobalt_event.queueFull 7]⟩

/-- Claim C10: the result of should_drop is independent of the incoming
ecn_marked flag, and after the call ecn_marked is true exactly when the
packet was due, the controller ended the call in DROPPING state, and
the marking capability succeeded. -/
theorem ecn_marked_fresh_per_call :
    ∀ (cache : List Nat) (v : cobalt_vars) (p : cobalt_params) (now enq : Nat)
      (mk b : Bool) (r : Nat),
      cobalt_should_drop cache { v with ecn_marked := b } p now enq mk r =
          cobalt_should_drop cache v p now enq mk r ∧
        (cobalt_should_drop cache v p now enq mk r).2.ecn_marked =
          (cobalt_next_due v now &&
            (cobalt_should_drop cache v p now enq mk r).2.dropping && mk) := by
  intro cache v p now enq mk b r
  constructor
  · cases v
    rfl
  · rw [should_drop_dropping_final]
    exact should_drop_ecn_char cache v p now enq mk r
